import Mathlib

/-!
Verification development for the admission-controlled work queue and
rate limiter of the reddit-ai-summaries app.

The quota ledger is the `TokenBucket` class (current revision: the class
with `waitForTokens(tokens, context, timeout)` and
`checkRequestAvailability(context, timeout)`).  Redis stores four scalars:
`tokens` (float), `last_refill`, `requests_today`, `last_request`; an
absent key parses as 0.  Floats are modelled as exact rationals and
timestamps (milliseconds) as rationals as well.
-/

/-- Configured limits of the token bucket: `tokensPerMinute`,
`requestsPerMinute`, `requestsPerDay` (fields of `TokenBucket`). -/
structure Limits where
  tokensPerMinute : ℚ
  requestsPerMinute : ℚ
  requestsPerDay : ℕ
deriving DecidableEq

/-- The four persisted quota scalars read and written by `TokenBucket`. -/
structure BucketState where
  tokens : ℚ
  lastRefill : ℚ
  requestsToday : ℕ
  lastRequest : ℚ
deriving DecidableEq

/-- The state read from an uninitialized store: every key is absent and
`parseInt(... || chr0)` / `parseFloat(... || chr0)` yield 0. -/
def initBucketState : BucketState :=
  { tokens := 0, lastRefill := 0, requestsToday := 0, lastRequest := 0 }

/-- `TokenBucket.refill`: `timePassed = (now - lastRefill) / 1000`,
`newTokens = timePassed * (tokensPerMinute / 60)`,
`updatedTokens = min(currentTokens + newTokens, tokensPerMinute)`,
then both `tokens` and `last_refill` are written back. -/
def refill (L : Limits) (now : ℚ) (s : BucketState) : BucketState :=
  { s with
    tokens := min (s.tokens + (now - s.lastRefill) / 1000 * (L.tokensPerMinute / 60))
      L.tokensPerMinute
    lastRefill := now }

/-- `TokenBucket.releaseTokens`: `updatedTokens = min(currentTokens + tokens,
tokensPerMinute)`. -/
def releaseTokens (L : Limits) (amount : ℚ) (s : BucketState) : BucketState :=
  { s with tokens := min (s.tokens + amount) L.tokensPerMinute }

/-- `TokenBucket.resetDailyRequests`: sets `requests_today` to 0 and
`tokens` to the per-minute cap. -/
def resetDailyRequests (L : Limits) (s : BucketState) : BucketState :=
  { s with requestsToday := 0, tokens := L.tokensPerMinute }

/-- One quota-ledger mutation, each mirroring the code path that performs
it: `refillOp` is `refill`; `reserveOp` is the grant branch of
`waitForTokens` (`if currentTokens >= tokens` then subtract); `releaseOp`
is `releaseTokens`; `requestGrantOp` is the grant branch of
`waitForRequest` (`if requestsToday < requestsPerDay` then increment and
stamp `last_request`); `resetOp` is `resetDailyRequests`. -/
inductive LedgerOp where
  | refillOp (now : ℚ)
  | reserveOp (amount : ℚ)
  | releaseOp (amount : ℚ)
  | requestGrantOp (now : ℚ)
  | resetOp
deriving DecidableEq

/-- Apply one ledger operation to the persisted scalars. -/
def applyOp (L : Limits) (s : BucketState) : LedgerOp → BucketState
  | .refillOp now => refill L now s
  | .reserveOp amount =>
      if amount ≤ s.tokens then { s with tokens := s.tokens - amount } else s
  | .releaseOp amount => releaseTokens L amount s
  | .requestGrantOp now =>
      if s.requestsToday < L.requestsPerDay then
        { s with requestsToday := s.requestsToday + 1, lastRequest := now }
      else s
  | .resetOp => resetDailyRequests L s

/-- Side conditions under which an operation occurs in the program:
refills happen at a time not earlier than the recorded last refill
(`Date.now()` is monotone across the sequential calls), and reserved or
released token amounts are nonnegative (they come from `Math.ceil` of
character counts). -/
def opOK (s : BucketState) : LedgerOp → Prop
  | .refillOp now => s.lastRefill ≤ now
  | .reserveOp amount => 0 ≤ amount
  | .releaseOp amount => 0 ≤ amount
  | .requestGrantOp _ => True
  | .resetOp => True

/-- Apply a finite sequence of ledger operations left to right. -/
def applyOps (L : Limits) (s : BucketState) (ops : List LedgerOp) : BucketState :=
  ops.foldl (applyOp L) s

/-- Every operation of the sequence satisfies its side condition in the
state it is applied to. -/
def opsOK (L : Limits) (s : BucketState) : List LedgerOp → Prop
  | [] => True
  | op :: rest => opOK s op ∧ opsOK L (applyOp L s op) rest

/-- The bounds stated in the spec: `tokensAvailable ∈ [0, tokensPerMinute]`
and `requestsIssuedToday ∈ [0, requestsPerDay]` (the lower bound on
`requestsToday` is inherent to `ℕ`). -/
def QuotaBounds (L : Limits) (s : BucketState) : Prop :=
  0 ≤ s.tokens ∧ s.tokens ≤ L.tokensPerMinute ∧ s.requestsToday ≤ L.requestsPerDay

instance decQuotaBounds (L : Limits) (s : BucketState) : Decidable (QuotaBounds L s) := by
  unfold QuotaBounds
  infer_instance

instance decOpOK (s : BucketState) (op : LedgerOp) : Decidable (opOK s op) := by
  cases op <;> simp only [opOK] <;> infer_instance

instance decOpsOK (L : Limits) : (s : BucketState) → (ops : List LedgerOp) →
    Decidable (opsOK L s ops)
  | _, [] => .isTrue trivial
  | s, op :: rest =>
      have : Decidable (opsOK L (applyOp L s op) rest) := decOpsOK L _ rest
      by
        simp only [opsOK]
        infer_instance

theorem applyOp_bounds (L : Limits) (s : BucketState) (op : LedgerOp)
    (hcap : 0 ≤ L.tokensPerMinute) (hs : QuotaBounds L s) (hop : opOK s op) :
    QuotaBounds L (applyOp L s op) := by
  obtain ⟨h0, hc, hr⟩ := hs
  cases op with
  | refillOp now =>
      simp only [opOK] at hop
      have hdt : (0 : ℚ) ≤ (now - s.lastRefill) / 1000 * (L.tokensPerMinute / 60) := by
        have h1 : (0 : ℚ) ≤ now - s.lastRefill := by linarith
        positivity
      refine ⟨?_, ?_, hr⟩
      · simp only [applyOp, refill, le_min_iff]
        constructor <;> linarith
      · simp only [applyOp, refill]
        exact min_le_right _ _
  | reserveOp amount =>
      simp only [opOK] at hop
      simp only [applyOp]
      split
      · next h =>
          refine ⟨?_, ?_, ?_⟩ <;> dsimp only
          · linarith
          · linarith
          · exact hr
      · exact ⟨h0, hc, hr⟩
  | releaseOp amount =>
      simp only [opOK] at hop
      refine ⟨?_, ?_, hr⟩
      · simp only [applyOp, releaseTokens, le_min_iff]
        constructor <;> linarith
      · simp only [applyOp, releaseTokens]
        exact min_le_right _ _
  | requestGrantOp now =>
      simp only [applyOp]
      split
      · next h =>
          refine ⟨h0, hc, ?_⟩
          dsimp only
          omega
      · exact ⟨h0, hc, hr⟩
  | resetOp =>
      exact ⟨hcap, le_refl _, Nat.zero_le _⟩

/-- Claim C2: for every finite sequence of quota-ledger operations
(refill, token reservation, token release, request-slot grant, daily
reset) starting from a state satisfying the bounds, `tokensAvailable`
stays within `[0, tokensPerMinute]` and `requestsIssuedToday` stays
within `[0, requestsPerDay]`. -/
theorem quotaLedger_bounds_invariant (L : Limits) (s : BucketState)
    (ops : List LedgerOp) (hcap : 0 ≤ L.tokensPerMinute)
    (hs : QuotaBounds L s) (hops : opsOK L s ops) :
    QuotaBounds L (applyOps L s ops) := by
  induction ops generalizing s with
  | nil => exact hs
  | cons op rest ih =>
      obtain ⟨hop, hrest⟩ := hops
      exact ih (applyOp L s op) (applyOp_bounds L s op hcap hs hop) hrest

/-- Witness for C2 at a concrete limit configuration, start state and
operation sequence exercising all five operation kinds. -/
theorem quotaLedger_bounds_invariant_witness :
    QuotaBounds ⟨100, 15, 10⟩
      (applyOps ⟨100, 15, 10⟩ ⟨50, 0, 3, 0⟩
        [.refillOp 60000, .reserveOp 10, .releaseOp 5, .requestGrantOp 60000, .resetOp]) :=
  quotaLedger_bounds_invariant ⟨100, 15, 10⟩ ⟨50, 0, 3, 0⟩
    [.refillOp 60000, .reserveOp 10, .releaseOp 5, .requestGrantOp 60000, .resetOp]
    (by norm_num) (by decide) (by decide)

/-!
Polling loops of the current `TokenBucket` revision.  Both
`waitForTokens(tokens, context, timeout)` and
`checkRequestAvailability(context, timeout)` are `while` loops guarded by
`Date.now() - startTime < timeout`, whose body either exits with an
outcome or sleeps 100 ms and polls again.  The loop is embedded with the
time of each poll given by a trace `t : ℕ → ℚ` (`t 0` is the start time),
a step function for the body, and an iteration budget (`fuel`); the
termination theorem shows the budget `fuelFor timeout` is never exhausted,
so the embedding with that budget is exact.
-/

/-- Result of a bounded polling loop: the body exited with `r`, the
timeout guard failed (`timedOut`), or the modelling budget ran out
(`fuelOut`, shown unreachable). -/
inductive PollResult (ρ σ : Type) where
  | done (r : ρ)
  | timedOut (s : σ)
  | fuelOut (s : σ)
deriving DecidableEq

/-- True exactly on the `fuelOut` artefact of the embedding. -/
def PollResult.isFuel {ρ σ : Type} : PollResult ρ σ → Bool
  | .fuelOut _ => true
  | _ => false

/-- One `while (Date.now() - startTime < timeout)` polling loop.  At poll
`k` the guard compares `t k - t 0` with the timeout; the body `step`
either exits with a result (`Sum.inl`) or yields the state for the next
poll after the 100 ms sleep (`Sum.inr`). -/
def pollLoop {ρ σ : Type} (timeout : ℚ) (t : ℕ → ℚ) (step : ℚ → σ → Sum ρ σ) :
    ℕ → ℕ → σ → PollResult ρ σ
  | fuel, k, s =>
    if t k - t 0 < timeout then
      match fuel with
      | 0 => .fuelOut s
      | fuel' + 1 =>
        match step (t k) s with
        | Sum.inl r => .done r
        | Sum.inr s' => pollLoop timeout t step fuel' (k + 1) s'
    else .timedOut s

/-- Iteration budget sufficient for a loop that advances at least 100 ms
per poll: one more than `timeout / 100` rounded up. -/
def fuelFor (timeout : ℚ) : ℕ := (Int.toNat ⌈timeout / 100⌉) + 1

/-- Body of `waitForTokens`: refill, read the tokens, and if at least
`tokens` are available write back `currentTokens - tokens` and return
`true`; otherwise sleep and poll again. -/
def tokenStep (L : Limits) (amount : ℚ) (now : ℚ) (s : BucketState) :
    Sum BucketState BucketState :=
  let s1 := refill L now s
  if amount ≤ s1.tokens then Sum.inl { s1 with tokens := s1.tokens - amount }
  else Sum.inr s1

/-- `TokenBucket.waitForTokens(tokens, context, timeout)`: the bounded
polling loop around `tokenStep`; `done s` is the `return true` exit
carrying the written-back state, `timedOut` the `return false` exit. -/
def waitForTokensTimed (L : Limits) (amount timeout : ℚ) (t : ℕ → ℚ)
    (s : BucketState) : PollResult BucketState BucketState :=
  pollLoop timeout t (tokenStep L amount) (fuelFor timeout) 0 s

/-- Exits of `checkRequestAvailability`: the thrown
`DailyRequestLimitReached` error, or `return true` (granted).  Both carry
the bucket state at the exit; the source performs no redis write on
either path. -/
inductive ReqOutcome where
  | dailyLimitReached (s : BucketState)
  | granted (s : BucketState)
deriving DecidableEq

/-- Body of `checkRequestAvailability`: read `last_request` and
`requests_today`; if `requestsToday >= requestsPerDay` throw
`DailyRequestLimitReached`; if `now - lastRequest >= 60000 /
requestsPerMinute` return `true`; otherwise sleep and poll again.  No
branch writes to the store. -/
def reqStep (L : Limits) (now : ℚ) (s : BucketState) : Sum ReqOutcome BucketState :=
  if L.requestsPerDay ≤ s.requestsToday then Sum.inl (.dailyLimitReached s)
  else if 60000 / L.requestsPerMinute ≤ now - s.lastRequest then Sum.inl (.granted s)
  else Sum.inr s

/-- `TokenBucket.checkRequestAvailability(context, timeout)`: the bounded
polling loop around `reqStep`. -/
def checkRequestAvailability (L : Limits) (timeout : ℚ) (t : ℕ → ℚ)
    (s : BucketState) : PollResult ReqOutcome BucketState :=
  pollLoop timeout t (reqStep L) (fuelFor timeout) 0 s

theorem pollLoop_not_fuelOut {ρ σ : Type} (timeout : ℚ) (t : ℕ → ℚ)
    (step : ℚ → σ → Sum ρ σ) (ht : ∀ k, t k + 100 ≤ t (k + 1)) :
    ∀ (fuel k : ℕ) (s : σ), timeout ≤ 100 * fuel + (t k - t 0) →
      (pollLoop timeout t step fuel k s).isFuel = false := by
  intro fuel
  induction fuel with
  | zero =>
      intro k s hb
      rw [pollLoop]
      have : ¬ (t k - t 0 < timeout) := by
        simp only [Nat.cast_zero, mul_zero, zero_add] at hb
        intro h
        linarith
      simp [this, PollResult.isFuel]
  | succ fuel ih =>
      intro k s hb
      rw [pollLoop]
      by_cases hg : t k - t 0 < timeout
      · simp only [hg, if_true]
        cases hstep : step (t k) s with
        | inl r => simp [PollResult.isFuel]
        | inr s' =>
            simp only
            apply ih (k + 1) s'
            have := ht k
            push_cast at hb ⊢
            linarith
      · simp [hg, PollResult.isFuel]

theorem fuelFor_large (timeout : ℚ) (h : 0 ≤ timeout) :
    timeout ≤ 100 * (fuelFor timeout : ℚ) := by
  unfold fuelFor
  have h1 : timeout / 100 ≤ (⌈timeout / 100⌉ : ℚ) := Int.le_ceil _
  have h2 : (0 : ℤ) ≤ ⌈timeout / 100⌉ := by
    refine Int.ceil_nonneg ?_
    positivity
  have h3 : ((Int.toNat ⌈timeout / 100⌉ : ℕ) : ℚ) = ((⌈timeout / 100⌉ : ℤ) : ℚ) := by
    exact_mod_cast Int.toNat_of_nonneg h2
  push_cast
  rw [h3]
  linarith

/-- Claim C8: every quota-reservation wait (for a request slot and for
tokens) terminates within its bounded timeout: for every input state no
execution of `waitForTokens` or `checkRequestAvailability` polls past the
`fuelFor timeout` budget (each poll is 100 ms apart), so each wait exits
with a grant, the daily-limit error, or the timed-out return once the
timeout has elapsed. -/
theorem quota_waits_terminate (L : Limits) (amount timeout : ℚ) (t : ℕ → ℚ)
    (s : BucketState) (hto : 0 ≤ timeout) (ht : ∀ k, t k + 100 ≤ t (k + 1)) :
    (waitForTokensTimed L amount timeout t s).isFuel = false ∧
    (checkRequestAvailability L timeout t s).isFuel = false := by
  constructor
  · exact pollLoop_not_fuelOut timeout t (tokenStep L amount) ht (fuelFor timeout) 0 s
      (by have := fuelFor_large timeout hto; simp only [sub_self]; linarith)
  · exact pollLoop_not_fuelOut timeout t (reqStep L) ht (fuelFor timeout) 0 s
      (by have := fuelFor_large timeout hto; simp only [sub_self]; linarith)

/-- Witness for C8 with a 60 s timeout and polls every 100 ms. -/
theorem quota_waits_terminate_witness :
    (0 : ℚ) ≤ 60000 ∧ (∀ k : ℕ, ((100 * k : ℚ) + 100 ≤ 100 * (k + 1))) ∧
    ((waitForTokensTimed ⟨100, 15, 10⟩ 5 60000 (fun k => 100 * k) initBucketState).isFuel
        = false ∧
      (checkRequestAvailability ⟨100, 15, 10⟩ 60000 (fun k => 100 * k)
        initBucketState).isFuel = false) :=
  ⟨by norm_num, fun k => le_of_eq (by ring),
    quota_waits_terminate ⟨100, 15, 10⟩ 5 60000 (fun k => 100 * k) initBucketState
      (by norm_num) (fun k => by push_cast; linarith)⟩

theorem pollLoop_first_done {ρ σ : Type} (timeout : ℚ) (t : ℕ → ℚ)
    (step : ℚ → σ → Sum ρ σ) (m : ℕ) (s : σ) (r : ρ)
    (hg : t 0 - t 0 < timeout) (hs : step (t 0) s = Sum.inl r) :
    pollLoop timeout t step (m + 1) 0 s = .done r := by
  rw [pollLoop, if_pos hg]
  simp [hs]

/-- Claim C1 (code bug): at a concrete state — uninitialized store, 15
requests per minute, 1500 per day, first poll at 100000 ms with a 60 s
timeout — `checkRequestAvailability` returns granted, yet the state it
leaves behind is the unchanged input state: `requests_today` is still 0
(not incremented) and `last_request` still 0 (not stamped), because no
branch of `checkRequestAvailability` writes to the store.  The increment
and stamp exist only in the legacy unbounded `waitForRequest`, which the
current pipeline does not call. -/
theorem checkRequestAvailability_grants_without_increment :
    checkRequestAvailability ⟨100, 15, 1500⟩ 60000 (fun k => 100000 + 100 * k)
        initBucketState = .done (.granted initBucketState) ∧
      initBucketState.requestsToday = 0 ∧ initBucketState.lastRequest = 0 := by
  refine ⟨?_, rfl, rfl⟩
  have h : fuelFor (60000 : ℚ) = (Int.toNat ⌈(60000 : ℚ) / 100⌉) + 1 := rfl
  rw [checkRequestAvailability, h]
  apply pollLoop_first_done
  · norm_num
  · simp only [reqStep, initBucketState]
    norm_num

/-- Claim C10: starting from an uninitialized durable store (all quota
keys absent, hence read as 0), the first refill clamps the overshooting
elapsed-time credit to the full per-minute cap, and the first
request-slot reservation attempt passes the inter-request spacing gate
immediately (granted on its very first poll). -/
theorem cold_start_refill_and_gate (L : Limits) (now timeout : ℚ) (t : ℕ → ℚ)
    (hcap : 0 < L.tokensPerMinute) (hrpm : 1 ≤ L.requestsPerMinute)
    (hrpd : 1 ≤ L.requestsPerDay) (hnow : 60000 ≤ now) (hto : 0 < timeout)
    (ht0 : t 0 = now) :
    (refill L now initBucketState).tokens = L.tokensPerMinute ∧
    checkRequestAvailability L timeout t initBucketState =
      .done (.granted initBucketState) := by
  constructor
  · have h2 : (0 : ℚ) + (now - 0) / 1000 * (L.tokensPerMinute / 60)
        = now * L.tokensPerMinute / 60000 := by ring
    have hfill : L.tokensPerMinute ≤ (0 : ℚ) + (now - 0) / 1000 * (L.tokensPerMinute / 60) := by
      rw [h2, le_div_iff₀ (by norm_num : (0 : ℚ) < 60000)]
      nlinarith [mul_le_mul_of_nonneg_right hnow hcap.le]
    simp only [refill, initBucketState]
    exact min_eq_right hfill
  · have h : fuelFor timeout = (Int.toNat ⌈timeout / 100⌉) + 1 := rfl
    rw [checkRequestAvailability, h]
    apply pollLoop_first_done
    · simpa using hto
    · have hdaily : ¬ (L.requestsPerDay ≤ initBucketState.requestsToday) := by
        simp only [initBucketState]
        omega
      have hgate : 60000 / L.requestsPerMinute ≤ t 0 - initBucketState.lastRequest := by
        rw [ht0]
        have hd := div_le_self (by norm_num : (0 : ℚ) ≤ 60000) hrpm
        simp only [initBucketState]
        linarith
      simp [reqStep, hdaily, hgate]

/-- Witness for C10 at the default-like limits, first poll at 100 s. -/
theorem cold_start_refill_and_gate_witness :
    ((0 : ℚ) < 4000000 ∧ (1 : ℚ) ≤ 15 ∧ 1 ≤ 1500 ∧ (60000 : ℚ) ≤ 100000 ∧
      (0 : ℚ) < 60000) ∧
    ((refill ⟨4000000, 15, 1500⟩ 100000 initBucketState).tokens = 4000000 ∧
      checkRequestAvailability ⟨4000000, 15, 1500⟩ 60000 (fun k => 100000 + 100 * k)
        initBucketState = .done (.granted initBucketState)) :=
  ⟨⟨by norm_num, by norm_num, by norm_num, by norm_num, by norm_num⟩,
    cold_start_refill_and_gate ⟨4000000, 15, 1500⟩ 100000 60000
      (fun k => 100000 + 100 * k) (by norm_num) (by norm_num) (by norm_num)
      (by norm_num) (by norm_num) (by norm_num)⟩

/-!
Delay queue and retry ledger.  The redis sorted set `post_queue` is
modelled as a list of `(postId, score)` entries in ascending score order
with unique members; post ids are opaque and modelled as naturals.  The
per-item retry hashes `retry:<postId>` with field `count` are modelled as
an association list.  `zAdd` upserts: theorems about states built with it
only inspect membership and scores (`zScore`), never entry positions,
since a real sorted set repositions the entry by its new score.
-/

/-- Generic lookup in an association list keyed by the first component:
the substrate for `zScore` and for reading `retry:<id> count`. -/
def alistGet {β : Type} (l : List (ℕ × β)) (id : ℕ) : Option β :=
  (l.find? (fun e => decide (e.1 = id))).map Prod.snd

/-- Generic removal: the substrate for `zRem` of one member and for
`del retry:<id>`. -/
def alistRemove {β : Type} (l : List (ℕ × β)) (id : ℕ) : List (ℕ × β) :=
  l.filter (fun e => !(decide (e.1 = id)))

/-- Generic upsert: the substrate for `zAdd` (re-adding a member updates
its score rather than duplicating) and for `hSet retry:<id> count`. -/
def alistSet {β : Type} (l : List (ℕ × β)) (id : ℕ) (b : β) : List (ℕ × β) :=
  alistRemove l id ++ [(id, b)]

/-- `zRange('post_queue', lo, hi, { by: 'score' })`. -/
def zRangeByScoreQ (q : List (ℕ × ℤ)) (lo hi : ℤ) : List (ℕ × ℤ) :=
  q.filter (fun e => decide (lo ≤ e.2) && decide (e.2 ≤ hi))

/-- Score of a member of the sorted set, if present. -/
def zScore (q : List (ℕ × ℤ)) (id : ℕ) : Option ℤ := alistGet q id

/-- `zAdd('post_queue', { member, score })`. -/
def zAddQ (q : List (ℕ × ℤ)) (id : ℕ) (score : ℤ) : List (ℕ × ℤ) :=
  alistSet q id score

/-- `zRem('post_queue', [member])`. -/
def zRemQ (q : List (ℕ × ℤ)) (id : ℕ) : List (ℕ × ℤ) := alistRemove q id

/-- `fetchPostIds`: `zRange('post_queue', 0, now, { by: 'score' })`, the
entries that are ready at `now` (scores are enqueue/reschedule times). -/
def fetchPostIds (q : List (ℕ × ℤ)) (now : ℤ) : List (ℕ × ℤ) :=
  zRangeByScoreQ q 0 now

/-- The batch one worker cycle iterates: `postIds.slice(0, 10)` applied
to the `fetchPostIds` result. -/
def pullReady (q : List (ℕ × ℤ)) (now : ℤ) : List (ℕ × ℤ) :=
  (fetchPostIds q now).take 10

/-- The pull together with the queue it leaves behind: `zRange` issues no
write command, so the queue is returned unchanged. -/
def pullReadyWithQueue (q : List (ℕ × ℤ)) (now : ℤ) :
    List (ℕ × ℤ) × List (ℕ × ℤ) :=
  (pullReady q now, q)

/-- Ascending score order, the iteration order of the sorted set. -/
def SortedByScore (q : List (ℕ × ℤ)) : Prop :=
  List.Pairwise (fun a b => a.2 ≤ b.2) q

instance decSortedByScore (q : List (ℕ × ℤ)) : Decidable (SortedByScore q) := by
  unfold SortedByScore
  infer_instance

/-- Claim C6: for every queue state and time `now`, the pull-ready
operation returns only entries whose score is at most `now`, in ascending
score order, at most 10 of them, and leaves the queue unchanged. -/
theorem pullReady_spec (q : List (ℕ × ℤ)) (now : ℤ) (hq : SortedByScore q) :
    (∀ e ∈ pullReady q now, e.2 ≤ now) ∧
    List.Pairwise (fun a b => a.2 ≤ b.2) (pullReady q now) ∧
    (pullReady q now).length ≤ 10 ∧
    (pullReadyWithQueue q now).2 = q := by
  refine ⟨?_, ?_, ?_, rfl⟩
  · intro e he
    have h1 : e ∈ fetchPostIds q now := List.mem_of_mem_take he
    have h2 := (List.mem_filter.1 h1).2
    simp only [Bool.and_eq_true, decide_eq_true_eq] at h2
    exact h2.2
  · exact List.Pairwise.sublist (List.take_sublist _ _) (hq.filter _)
  · exact List.length_take_le _ _

/-- Witness for C6 on a concrete three-entry sorted queue. -/
theorem pullReady_spec_witness :
    SortedByScore [(1, 5), (2, 7), (3, 20)] ∧
    ((∀ e ∈ pullReady [(1, 5), (2, 7), (3, 20)] 10, e.2 ≤ 10) ∧
      List.Pairwise (fun a b => a.2 ≤ b.2) (pullReady [(1, 5), (2, 7), (3, 20)] 10) ∧
      (pullReady [(1, 5), (2, 7), (3, 20)] 10).length ≤ 10 ∧
      (pullReadyWithQueue [(1, 5), (2, 7), (3, 20)] 10).2 = [(1, 5), (2, 7), (3, 20)]) :=
  ⟨by decide, pullReady_spec [(1, 5), (2, 7), (3, 20)] 10 (by decide)⟩

/-- `cleanupQueue` of the current revision: `allItems =
zRange('post_queue', 0, -1, { by: 'score' })` — a by-score range query
over the score interval `[0, -1]` — then the items among them whose
score is below `now - 86400000` (24 h in milliseconds) are collected
and, when any exist, `zRem`-ed by member; on an empty read or an empty
removal list nothing is removed. -/
def cleanupQueue (q : List (ℕ × ℤ)) (now : ℤ) : List (ℕ × ℤ) :=
  let allItems := zRangeByScoreQ q 0 (-1)
  let itemsToRemove :=
    (allItems.filter (fun x => decide (x.2 < now - 86400000))).map Prod.fst
  if itemsToRemove.isEmpty then q
  else q.filter (fun e => !(decide (e.1 ∈ itemsToRemove)))

/-- Claim C9 (code bug): the housekeeping purge removes nothing, ever.
The cleanup reads `zRange('post_queue', 0, -1, { by: 'score' })`, and
under by-score semantics (the same semantics `fetchPostIds` relies on)
the score interval `[0, -1]` is empty, so `allItems` is always `[]`, no
member is ever collected for removal, and the queue is returned intact
for every queue state and time — in particular the stale entry `(1, 0)`,
whose score 0 is a full day below the cutoff `now - 86400000` at
`now = 172800000`, survives the purge the claim says must remove it. -/
theorem cleanupQueue_purges_nothing :
    (∀ (q : List (ℕ × ℤ)) (now : ℤ), cleanupQueue q now = q) ∧
    cleanupQueue [(1, 0)] 172800000 = [(1, 0)] ∧
    (0 : ℤ) < 172800000 - 86400000 := by
  have hall : ∀ q : List (ℕ × ℤ), zRangeByScoreQ q 0 (-1) = [] := by
    intro q
    unfold zRangeByScoreQ
    induction q with
    | nil => rfl
    | cons e rest ih =>
        have he : (decide ((0 : ℤ) ≤ e.2) && decide (e.2 ≤ -1)) = false := by
          rcases le_or_lt 0 e.2 with h | h
          · have hn : ¬ (e.2 ≤ -1) := by omega
            simp [hn]
          · have hn : ¬ ((0 : ℤ) ≤ e.2) := by omega
            simp [hn]
        simp [List.filter_cons, he, ih]
  refine ⟨?_, by decide, by norm_num⟩
  intro q now
  simp only [cleanupQueue]
  rw [hall q]
  simp

/-- Retry constants from the config: `MAX_RETRIES`, `RETRY_INTERVAL`
(5 min in ms), `RETRY_DELAY` (1 min in ms). -/
structure RetryCfg where
  MAX_RETRIES : ℕ
  RETRY_INTERVAL : ℤ
  RETRY_DELAY : ℤ
deriving DecidableEq

/-- `CONSTANTS` of the archive.is revision: MAX_RETRIES 2. -/
def CONSTANTS6 : RetryCfg := ⟨2, 300000, 60000⟩

/-- `CONSTANTS` of the scriptless-link revision: MAX_RETRIES 1. -/
def CONSTANTS7 : RetryCfg := ⟨1, 300000, 60000⟩

/-- The durable state the pipeline worker mutates: the `post_queue`
sorted set, the `retry:<postId>` count hashes, the `gemini_auth_error`
flag and the cached api-key-validation entry. -/
structure WorldState where
  queue : List (ℕ × ℤ)
  retries : List (ℕ × ℕ)
  authFlag : Bool
  apiKeyValidated : Bool
deriving DecidableEq

/-- `getCurrentRetryCount`: `hGet retry:<postId> count`, with an absent
key parsing as 0. -/
def getCurrentRetryCount (w : WorldState) (id : ℕ) : ℕ :=
  (alistGet w.retries id).getD 0

/-- `retryPost` (identical in the archive.is and scriptless revisions):
below `MAX_RETRIES`, re-enqueue at `Date.now() + RETRY_INTERVAL +
RETRY_DELAY` and `hSet` the incremented count; at or above it, `zRem`
the entry and `del` the counter. -/
def retryPost (cfg : RetryCfg) (now : ℤ) (w : WorldState) (id : ℕ) : WorldState :=
  if getCurrentRetryCount w id < cfg.MAX_RETRIES then
    { w with
      queue := zAddQ w.queue id (now + cfg.RETRY_INTERVAL + cfg.RETRY_DELAY)
      retries := alistSet w.retries id (getCurrentRetryCount w id + 1) }
  else
    { w with queue := zRemQ w.queue id, retries := alistRemove w.retries id }

/-- `handleArchiving` (archive.is revision): a failing `submitToArchive`
routes to `retryPost`; otherwise, at or above `MAX_RETRIES` the item is
evicted, else it is re-enqueued at `Date.now() + RETRY_INTERVAL` (no
`RETRY_DELAY`) with the count incremented. -/
def handleArchiving6 (cfg : RetryCfg) (now : ℤ) (submitOk : Bool)
    (w : WorldState) (id : ℕ) : WorldState :=
  if !submitOk then retryPost cfg now w id
  else if cfg.MAX_RETRIES ≤ getCurrentRetryCount w id then
    { w with queue := zRemQ w.queue id, retries := alistRemove w.retries id }
  else
    { w with
      queue := zAddQ w.queue id (now + cfg.RETRY_INTERVAL)
      retries := alistSet w.retries id (getCurrentRetryCount w id + 1) }

theorem find?_alistRemove_none {β : Type} (l : List (ℕ × β)) (id : ℕ) :
    (alistRemove l id).find? (fun e => decide (e.1 = id)) = none := by
  induction l with
  | nil => rfl
  | cons e rest ih =>
      by_cases h : e.1 = id
      · simp only [alistRemove] at ih ⊢
        simp [List.filter_cons, h, ih]
      · simp only [alistRemove] at ih ⊢
        simp [List.filter_cons, h, List.find?_cons, ih]

theorem alistGet_set_self {β : Type} (l : List (ℕ × β)) (id : ℕ) (b : β) :
    alistGet (alistSet l id b) id = some b := by
  unfold alistGet alistSet
  rw [List.find?_append, find?_alistRemove_none]
  simp [List.find?_cons]

theorem alistGet_remove_self {β : Type} (l : List (ℕ × β)) (id : ℕ) :
    alistGet (alistRemove l id) id = none := by
  unfold alistGet
  rw [find?_alistRemove_none]
  rfl

/-- The worker cycle in which every attempt at the item fails with a
classified-retryable error: the item enters fresh (no counter, enqueued
at `s0`), and failure `i` routes it through `retryPost` at time
`nows i`. -/
def failTrace (cfg : RetryCfg) (id : ℕ) (s0 : ℤ) (nows : ℕ → ℤ) : ℕ → WorldState
  | 0 => ⟨[(id, s0)], [], false, true⟩
  | i + 1 => retryPost cfg (nows i) (failTrace cfg id s0 nows i) id

theorem failTrace_count (cfg : RetryCfg) (id : ℕ) (s0 : ℤ) (nows : ℕ → ℤ) :
    ∀ i, i ≤ cfg.MAX_RETRIES →
      alistGet (failTrace cfg id s0 nows i).retries id
        = if i = 0 then none else some i := by
  intro i
  induction i with
  | zero =>
      intro _
      simp [failTrace, alistGet]
  | succ i ih =>
      intro hle
      have hi : i ≤ cfg.MAX_RETRIES := Nat.le_of_succ_le hle
      have hc : getCurrentRetryCount (failTrace cfg id s0 nows i) id = i := by
        unfold getCurrentRetryCount
        rw [ih hi]
        by_cases h0 : i = 0 <;> simp [h0]
      show alistGet (retryPost cfg (nows i) (failTrace cfg id s0 nows i) id).retries id = _
      rw [retryPost, hc, if_pos (Nat.lt_of_succ_le hle)]
      simp [alistGet_set_self]

theorem retryPost_count_le (cfg : RetryCfg) (now : ℤ) (w : WorldState) (id : ℕ) :
    getCurrentRetryCount (retryPost cfg now w id) id ≤ cfg.MAX_RETRIES := by
  unfold retryPost
  split
  · next h =>
      unfold getCurrentRetryCount at h ⊢
      simp only [alistGet_set_self, Option.getD_some]
      omega
  · next h =>
      unfold getCurrentRetryCount
      simp [alistGet_remove_self]

/-- Claim C3: an item that fails with a classified-retryable error on
every attempt is rescheduled (re-enqueued at `nows i + RETRY_INTERVAL +
RETRY_DELAY` with its counter incremented to `i + 1`) on each of the
first `MAX_RETRIES` failures, and the failure after that evicts it (queue
entry and counter both gone); the stored counter read never exceeds
`MAX_RETRIES`; and a retryable failure observed when the counter equals
`MAX_RETRIES` evicts rather than reschedules. -/
theorem retry_bound_exact (cfg : RetryCfg) (id : ℕ) (s0 : ℤ) (nows : ℕ → ℤ) :
    (∀ i < cfg.MAX_RETRIES,
      zScore (failTrace cfg id s0 nows (i + 1)).queue id
          = some (nows i + cfg.RETRY_INTERVAL + cfg.RETRY_DELAY) ∧
      alistGet (failTrace cfg id s0 nows (i + 1)).retries id = some (i + 1)) ∧
    (zScore (failTrace cfg id s0 nows (cfg.MAX_RETRIES + 1)).queue id = none ∧
      alistGet (failTrace cfg id s0 nows (cfg.MAX_RETRIES + 1)).retries id = none) ∧
    (∀ i, getCurrentRetryCount (failTrace cfg id s0 nows i) id ≤ cfg.MAX_RETRIES) ∧
    (∀ (w : WorldState) (now : ℤ), alistGet w.retries id = some cfg.MAX_RETRIES →
      zScore (retryPost cfg now w id).queue id = none ∧
      alistGet (retryPost cfg now w id).retries id = none) := by
  refine ⟨?_, ?_, ?_, ?_⟩
  · intro i hi
    have hc : getCurrentRetryCount (failTrace cfg id s0 nows i) id = i := by
      unfold getCurrentRetryCount
      rw [failTrace_count cfg id s0 nows i (Nat.le_of_lt hi)]
      by_cases h0 : i = 0 <;> simp [h0]
    constructor
    · show zScore (retryPost cfg (nows i) (failTrace cfg id s0 nows i) id).queue id = _
      rw [retryPost, hc, if_pos hi]
      exact alistGet_set_self _ _ _
    · show alistGet (retryPost cfg (nows i) (failTrace cfg id s0 nows i) id).retries id = _
      rw [retryPost, hc, if_pos hi]
      simpa using alistGet_set_self (failTrace cfg id s0 nows i).retries id (i + 1)
  · have hc : getCurrentRetryCount (failTrace cfg id s0 nows cfg.MAX_RETRIES) id
        = cfg.MAX_RETRIES := by
      unfold getCurrentRetryCount
      rw [failTrace_count cfg id s0 nows cfg.MAX_RETRIES (le_refl _)]
      by_cases h0 : cfg.MAX_RETRIES = 0 <;> simp [h0]
    constructor
    · show zScore (retryPost cfg (nows cfg.MAX_RETRIES)
          (failTrace cfg id s0 nows cfg.MAX_RETRIES) id).queue id = none
      rw [retryPost, hc, if_neg (lt_irrefl _)]
      exact alistGet_remove_self _ _
    · show alistGet (retryPost cfg (nows cfg.MAX_RETRIES)
          (failTrace cfg id s0 nows cfg.MAX_RETRIES) id).retries id = none
      rw [retryPost, hc, if_neg (lt_irrefl _)]
      exact alistGet_remove_self _ _
  · intro i
    cases i with
    | zero => simp [failTrace, getCurrentRetryCount, alistGet]
    | succ i => exact retryPost_count_le cfg (nows i) (failTrace cfg id s0 nows i) id
  · intro w now hw
    have hc : getCurrentRetryCount w id = cfg.MAX_RETRIES := by
      unfold getCurrentRetryCount
      rw [hw]
      rfl
    rw [retryPost, hc, if_neg (lt_irrefl _)]
    exact ⟨alistGet_remove_self _ _, alistGet_remove_self _ _⟩

/-- Witness for C3: with MAX_RETRIES = 2 the third failure evicts. -/
theorem retry_bound_exact_witness :
    (zScore (failTrace CONSTANTS6 1 0 (fun i => 1000 * (i : ℤ)) 3).queue 1 = none ∧
      alistGet (failTrace CONSTANTS6 1 0 (fun i => 1000 * (i : ℤ)) 3).retries 1 = none) ∧
    zScore (failTrace CONSTANTS6 1 0 (fun i => 1000 * (i : ℤ)) 1).queue 1
      = some (1000 * (0 : ℤ) + CONSTANTS6.RETRY_INTERVAL + CONSTANTS6.RETRY_DELAY) :=
  ⟨(retry_bound_exact CONSTANTS6 1 0 (fun i => 1000 * (i : ℤ))).2.1,
    ((retry_bound_exact CONSTANTS6 1 0 (fun i => 1000 * (i : ℤ))).1 0 (by decide)).1⟩

/-- Claim C7 counterexample: an item with retry count 0 (fresh, below
MAX_RETRIES) failing retryably at time 1000000 is re-enqueued by
`retryPost` at `1000000 + RETRY_INTERVAL + RETRY_DELAY` = 1360000, not at
`1000000 + RETRY_INTERVAL` = 1300000 as the claim requires for n = 0. -/
theorem retryPost_first_retry_delay_counterexample :
    zScore (retryPost CONSTANTS6 1000000 ⟨[(1, 0)], [], false, true⟩ 1).queue 1
        = some 1360000 ∧
      zScore (retryPost CONSTANTS6 1000000 ⟨[(1, 0)], [], false, true⟩ 1).queue 1 ≠
        some (1000000 + CONSTANTS6.RETRY_INTERVAL) := by
  decide

/-- Claim C7 amended: for retry count n < MAX_RETRIES the delays do not
depend on n at all: every `retryPost` reschedule is at exactly
`now + RETRY_INTERVAL + RETRY_DELAY`, and the not-yet-archived reschedule
of `handleArchiving` is at exactly `now + RETRY_INTERVAL`; both increment
the counter. -/
theorem retry_delays_constant (cfg : RetryCfg) (now : ℤ) (w : WorldState) (id : ℕ)
    (h : getCurrentRetryCount w id < cfg.MAX_RETRIES) :
    zScore (retryPost cfg now w id).queue id
        = some (now + cfg.RETRY_INTERVAL + cfg.RETRY_DELAY) ∧
    alistGet (retryPost cfg now w id).retries id
        = some (getCurrentRetryCount w id + 1) ∧
    zScore (handleArchiving6 cfg now true w id).queue id
        = some (now + cfg.RETRY_INTERVAL) ∧
    alistGet (handleArchiving6 cfg now true w id).retries id
        = some (getCurrentRetryCount w id + 1) := by
  refine ⟨?_, ?_, ?_, ?_⟩
  · rw [retryPost, if_pos h]
    exact alistGet_set_self _ _ _
  · rw [retryPost, if_pos h]
    simpa using alistGet_set_self w.retries id (getCurrentRetryCount w id + 1)
  · rw [handleArchiving6, if_neg (by simp), if_neg (not_le.2 h)]
    exact alistGet_set_self _ _ _
  · rw [handleArchiving6, if_neg (by simp), if_neg (not_le.2 h)]
    simpa using alistGet_set_self w.retries id (getCurrentRetryCount w id + 1)

/-- Witness for the amended C7 at a fresh item (n = 0, MAX_RETRIES 2). -/
theorem retry_delays_constant_witness :
    getCurrentRetryCount ⟨[(1, 0)], [], false, true⟩ 1 < CONSTANTS6.MAX_RETRIES ∧
    (zScore (retryPost CONSTANTS6 1000000 ⟨[(1, 0)], [], false, true⟩ 1).queue 1
        = some (1000000 + CONSTANTS6.RETRY_INTERVAL + CONSTANTS6.RETRY_DELAY) ∧
      alistGet (retryPost CONSTANTS6 1000000 ⟨[(1, 0)], [], false, true⟩ 1).retries 1
        = some (getCurrentRetryCount ⟨[(1, 0)], [], false, true⟩ 1 + 1) ∧
      zScore (handleArchiving6 CONSTANTS6 1000000 true ⟨[(1, 0)], [], false, true⟩ 1).queue 1
        = some (1000000 + CONSTANTS6.RETRY_INTERVAL) ∧
      alistGet (handleArchiving6 CONSTANTS6 1000000 true
          ⟨[(1, 0)], [], false, true⟩ 1).retries 1
        = some (getCurrentRetryCount ⟨[(1, 0)], [], false, true⟩ 1 + 1)) :=
  ⟨by decide, retry_delays_constant CONSTANTS6 1000000 ⟨[(1, 0)], [], false, true⟩ 1
    (by decide)⟩

/-!
Error classification and the per-cycle batch loop of `processQueue`.
JavaScript errors are modelled by their `name` and `message`; the
collaborator calls of one item (origin lookup, content fetch, archive
submission, summarization) are abstracted into a per-item outcome
environment, and the error-handling control flow around them is embedded
branch by branch.  The cycle is modelled from the point where the batch
has been pulled (the api-key and daily-limit preconditions at the top of
`processQueue` hold).
-/

/-- A JavaScript `Error` as inspected by the handlers: its `name` and
`message`. -/
structure JsError where
  name : String
  message : String
deriving DecidableEq

/-- `startsWithL l sub`: the char list `sub` is a prefix of `l`. -/
def startsWithL : List Char → List Char → Bool
  | _, [] => true
  | [], _ :: _ => false
  | a :: as, b :: bs => decide (a = b) && startsWithL as bs

/-- `hasSubL l sub`: the char list `sub` occurs contiguously in `l`. -/
def hasSubL : List Char → List Char → Bool
  | [], sub => sub.isEmpty
  | l@(_ :: rest), sub => startsWithL l sub || hasSubL rest sub

/-- JavaScript `String.prototype.includes`. -/
def containsSubStr (s sub : String) : Bool := hasSubL s.data sub.data

/-- JavaScript `String.prototype.toLowerCase` (characterwise). -/
def toLowerStr (s : String) : String := ⟨s.data.map Char.toLower⟩

/-- `isResolvableError` of the archive.is revision:
`resolvableErrors.includes(error.name) || (error.message &&
error.message.toLowerCase().includes(chr39 rate limit chr39))`; the
truthiness of `error.message` is nonemptiness. -/
def isResolvableError6 (e : JsError) : Bool :=
  (decide (e.name = "TimeoutError") || decide (e.name = "ServiceUnavailable")
      || decide (e.name = "RateLimitError"))
    || (!(decide (e.message = "")) && containsSubStr (toLowerStr e.message) "rate limit")

/-- `isResolvableError` of the scriptless revision: same as the archive.is
one except the rate-limit-substring disjunct is additionally conjoined
(at higher precedence than `||`) with
`error.message !== GeminiAuthenticationError`. -/
def isResolvableError7 (e : JsError) : Bool :=
  (decide (e.name = "TimeoutError") || decide (e.name = "ServiceUnavailable")
      || decide (e.name = "RateLimitError"))
    || ((!(decide (e.message = "")) && containsSubStr (toLowerStr e.message) "rate limit")
        && !(decide (e.message = "GeminiAuthenticationError")))

/-- Terminal removal used by the non-resolvable branches and the success
path: `zRem('post_queue', [postId])` plus `del('retry:<postId>')`. -/
def evictPost (w : WorldState) (id : ℕ) : WorldState :=
  { w with queue := zRemQ w.queue id, retries := alistRemove w.retries id }

/-- What the collaborators do for one item in the archive.is revision:
the origin post is missing; `fetchArticleContent` throws; the content is
not archived yet (with the `submitToArchive` result); the summary and
comment succeed; or `summarizeContent` throws. -/
inductive Outcome6 where
  | postMissing
  | fetchFail (e : JsError)
  | notArchived (submitOk : Bool)
  | summarySuccess
  | summaryFail (e : JsError)
deriving DecidableEq

/-- `handleSummaryError` (archive.is revision): a resolvable error routes
to `retryPost`; the `DailyRequestLimitReached` message only logs a
warning and returns; anything else evicts. -/
def handleSummaryError6 (cfg : RetryCfg) (now : ℤ) (w : WorldState) (id : ℕ)
    (e : JsError) : WorldState :=
  if isResolvableError6 e then retryPost cfg now w id
  else if e.message = "DailyRequestLimitReached" then w
  else evictPost w id

/-- `generateAndSubmitSummary` (archive.is revision): on success the item
is removed and its counter deleted; a thrown summary error is caught and
routed to `handleSummaryError`. -/
def generateAndSubmitSummary6 (cfg : RetryCfg) (now : ℤ) (w : WorldState)
    (id : ℕ) (res : Option JsError) : WorldState :=
  match res with
  | none => evictPost w id
  | some e => handleSummaryError6 cfg now w id e

/-- `processSinglePost` (archive.is revision): missing post is removed
from the queue (counter untouched); a fetch failure routes to
`retryPost`; un-archived content routes to `handleArchiving`; otherwise
the summary path runs.  No branch lets an error escape. -/
def processSinglePost6 (cfg : RetryCfg) (now : ℤ) (env : ℕ → Outcome6)
    (w : WorldState) (id : ℕ) : WorldState :=
  match env id with
  | .postMissing => { w with queue := zRemQ w.queue id }
  | .fetchFail _ => retryPost cfg now w id
  | .notArchived ok => handleArchiving6 cfg now ok w id
  | .summarySuccess => generateAndSubmitSummary6 cfg now w id none
  | .summaryFail e => generateAndSubmitSummary6 cfg now w id (some e)

/-- The `for` loop of `processQueue` (archive.is revision): every batch
member is handed to `processSinglePost` in order; nothing aborts the
loop. -/
def processBatch6 (cfg : RetryCfg) (now : ℤ) (env : ℕ → Outcome6)
    (w : WorldState) (batch : List ℕ) : WorldState :=
  batch.foldl (processSinglePost6 cfg now env) w

/-- `processQueue` (archive.is revision) from the batch pull on:
`fetchPostIds` then `slice(0, 10)`, then the sequential loop.  Returns
the final state and the list of items the loop processed. -/
def processQueue6 (cfg : RetryCfg) (now : ℤ) (env : ℕ → Outcome6)
    (w : WorldState) : WorldState × List ℕ :=
  ((processBatch6 cfg now env w (((fetchPostIds w.queue now).map Prod.fst).take 10)),
    ((fetchPostIds w.queue now).map Prod.fst).take 10)

/-- What the collaborators do for one item in the scriptless revision. -/
inductive Outcome7 where
  | postMissing
  | fetchFail (e : JsError)
  | summarySuccess
  | summaryFail (e : JsError)
deriving DecidableEq

/-- `handleSummaryError` (scriptless revision): on the
`GeminiAuthenticationError` message it invalidates the cached api-key
validation, sets the `gemini_auth_error` flag, and throws a new
`Error('GeminiAuthenticationError: Stopping queue processing')`
(returned as the second component); otherwise as in the archive.is
revision. -/
def handleSummaryError7 (cfg : RetryCfg) (now : ℤ) (w : WorldState) (id : ℕ)
    (e : JsError) : WorldState × Option JsError :=
  if e.message = "GeminiAuthenticationError" then
    ({ w with apiKeyValidated := false, authFlag := true },
      some ⟨"Error", "GeminiAuthenticationError: Stopping queue processing"⟩)
  else if isResolvableError7 e then (retryPost cfg now w id, none)
  else if e.message = "DailyRequestLimitReached" then (w, none)
  else (evictPost w id, none)

/-- `generateAndSubmitSummary` (scriptless revision): success removes the
item and counter; a summary error is caught and routed to
`handleSummaryError`, whose own throw propagates to the caller. -/
def generateAndSubmitSummary7 (cfg : RetryCfg) (now : ℤ) (w : WorldState)
    (id : ℕ) (res : Option JsError) : WorldState × Option JsError :=
  match res with
  | none => (evictPost w id, none)
  | some e => handleSummaryError7 cfg now w id e

/-- `handleGeneralError` (scriptless revision): resolvable errors route
to `retryPost`, everything else evicts; it never rethrows. -/
def handleGeneralError7 (cfg : RetryCfg) (now : ℤ) (w : WorldState) (id : ℕ)
    (e : JsError) : WorldState :=
  if isResolvableError7 e then retryPost cfg now w id else evictPost w id

/-- `processSinglePost` (scriptless revision): its outer `try` wraps the
whole body, so an error thrown out of `generateAndSubmitSummary`
(including the re-thrown authentication error) lands in the outer
`catch`, which calls `handleGeneralError`. -/
def processSinglePost7 (cfg : RetryCfg) (now : ℤ) (env : ℕ → Outcome7)
    (w : WorldState) (id : ℕ) : WorldState :=
  match env id with
  | .postMissing => { w with queue := zRemQ w.queue id }
  | .fetchFail _ => retryPost cfg now w id
  | .summarySuccess => (generateAndSubmitSummary7 cfg now w id none).1
  | .summaryFail e =>
      match generateAndSubmitSummary7 cfg now w id (some e) with
      | (w1, none) => w1
      | (w1, some e1) => handleGeneralError7 cfg now w1 id e1

/-- The `for` loop of `processQueue` (scriptless revision):
`processSinglePost` never throws, so the loop always runs the whole
batch. -/
def processBatch7 (cfg : RetryCfg) (now : ℤ) (env : ℕ → Outcome7)
    (w : WorldState) (batch : List ℕ) : WorldState :=
  batch.foldl (processSinglePost7 cfg now env) w

/-- `processQueue` (scriptless revision) from the batch pull on. -/
def processQueue7 (cfg : RetryCfg) (now : ℤ) (env : ℕ → Outcome7)
    (w : WorldState) : WorldState × List ℕ :=
  ((processBatch7 cfg now env w (((fetchPostIds w.queue now).map Prod.fst).take 10)),
    ((fetchPostIds w.queue now).map Prod.fst).take 10)

/-- Environment for the C4 scenario: item 1 hits the fatal authentication
error in summarization, item 2 fails its fetch with a timeout. -/
def env7ex : ℕ → Outcome7 := fun id =>
  if id = 1 then .summaryFail ⟨"Error", "GeminiAuthenticationError"⟩
  else .fetchFail ⟨"TimeoutError", "timeout"⟩

/-- Claim C4 (code bug): with batch [1, 2] both ready, item 1 retry count
1, and item 1 failing with the fatal authentication error, the cycle
removes item 1 from the queue AND deletes its retry counter AND still
processes item 2 (which gets rescheduled with its counter set) — because
the error `handleSummaryError` throws is caught again by the outer catch
of `processSinglePost` and classified non-resolvable.  The claim requires
item 1 untouched and item 2 unprocessed; only the auth flag part behaves
as specified. -/
theorem auth_error_evicts_and_batch_continues :
    ((processQueue7 CONSTANTS7 1000000 env7ex
        ⟨[(1, 0), (2, 0)], [(1, 1)], false, true⟩).2 = [1, 2]) ∧
    zScore (processQueue7 CONSTANTS7 1000000 env7ex
        ⟨[(1, 0), (2, 0)], [(1, 1)], false, true⟩).1.queue 1 = none ∧
    alistGet (processQueue7 CONSTANTS7 1000000 env7ex
        ⟨[(1, 0), (2, 0)], [(1, 1)], false, true⟩).1.retries 1 = none ∧
    zScore (processQueue7 CONSTANTS7 1000000 env7ex
        ⟨[(1, 0), (2, 0)], [(1, 1)], false, true⟩).1.queue 2 = some 1360000 ∧
    alistGet (processQueue7 CONSTANTS7 1000000 env7ex
        ⟨[(1, 0), (2, 0)], [(1, 1)], false, true⟩).1.retries 2 = some 1 ∧
    (processQueue7 CONSTANTS7 1000000 env7ex
        ⟨[(1, 0), (2, 0)], [(1, 1)], false, true⟩).1.authFlag = true := by
  decide

/-- Environment for the C5 scenario: item 1 raises the daily-limit signal
from summarization, item 2 fails its fetch with a timeout. -/
def env6ex : ℕ → Outcome6 := fun id =>
  if id = 1 then .summaryFail ⟨"Error", "DailyRequestLimitReached"⟩
  else .fetchFail ⟨"TimeoutError", "timeout"⟩

/-- Claim C5 (code bug): with batch [1, 2] both ready and item 1 raising
the daily-quota-exhausted signal, the raising item is indeed left exactly
as it was (entry, score and absent counter), but the cycle does NOT stop:
item 2 is still processed, and its fetch failure reschedules it and
increments its counter — its entry, score and counter are not what they
were at cycle start, contradicting the claim. -/
theorem daily_limit_midbatch_continues_processing :
    ((processQueue6 CONSTANTS6 1000000 env6ex
        ⟨[(1, 0), (2, 0)], [], false, true⟩).2 = [1, 2]) ∧
    zScore (processQueue6 CONSTANTS6 1000000 env6ex
        ⟨[(1, 0), (2, 0)], [], false, true⟩).1.queue 1 = some 0 ∧
    alistGet (processQueue6 CONSTANTS6 1000000 env6ex
        ⟨[(1, 0), (2, 0)], [], false, true⟩).1.retries 1 = none ∧
    zScore (processQueue6 CONSTANTS6 1000000 env6ex
        ⟨[(1, 0), (2, 0)], [], false, true⟩).1.queue 2 = some 1360000 ∧
    alistGet (processQueue6 CONSTANTS6 1000000 env6ex
        ⟨[(1, 0), (2, 0)], [], false, true⟩).1.retries 2 = some 1 := by
  decide
